import Mathlib

/-!
Shallow embedding of the `messari-sdk-py` client core
(`src/messari_sdk/client.py`, `src/messari_sdk/registry.py`,
`src/messari_sdk/exceptions.py`).

Modelling conventions:
* Python values that can appear in query maps are modelled by `PyVal`
  (`None`, `bool`, `int`, `str`, `list`); `bool` is a separate constructor,
  mirroring the fact that `isinstance(v, bool)` distinguishes `True`/`False`
  from `0`/`1` in `_normalize_query_params`.
* Python dicts are modelled as association lists (insertion-ordered, keys
  unique in practice); dict comprehensions become `List.filter` / recursion.
* Path-parameter values are modelled as strings (what `str.format`
  interpolates for the string values the SDK documents).
* The HTTP response object carries `status_code`, the body text
  (`content` ~ `resp.content` / `resp.text`: the decoded body), and the
  outcome of `resp.json()` (`none` = the JSON parse raises).
* Mutation of dict objects (relevant only to `paged_call`, which copies the
  caller's dict and then mutates its own copy in place) is modelled with an
  explicit heap of dicts addressed by natural-number references.
-/

/-- Python values appearing in query-parameter maps. -/
inductive PyVal where
  | vNone
  | vBool (b : Bool)
  | vInt (n : Int)
  | vStr (s : String)
  | vList (xs : List PyVal)
deriving Repr, BEq

/-- `v is None` test used by the dict comprehensions in
`_filter_query_params` (`v is not None`). -/
def PyVal.isNone : PyVal → Bool
  | .vNone => true
  | _ => false

/-- A Python dict as an insertion-ordered association list. -/
abbrev PyDict := List (String × PyVal)

/-- One entry of `MESSARI_API_REGISTRY`: HTTP method, path template, declared
path-parameter names, allowed query-parameter names.  (The registry data has
no `body_params` keys and the free-text `description` is non-semantic, so
neither is modelled.) -/
structure EndpointSpec where
  method : String
  path : String
  path_params : List String
  query_params : List String
deriving Repr, DecidableEq

/-- `MESSARI_API_REGISTRY` from `registry.py`, transcribed entry by entry. -/
def MESSARI_API_REGISTRY : List (String × EndpointSpec) :=
  [ ("assets.list",
      { method := "GET"
        path := "/metrics/v2/assets"
        path_params := []
        query_params :=
          ["category", "sector", "search", "limit", "page",
           "hasDiligence", "hasIntel", "hasMarketData", "hasNews",
           "hasProposals", "hasResearch", "hasTokenUnlocks",
           "hasFundraising"] })
  , ("assets.details",
      { method := "GET"
        path := "/metrics/v2/assets/details"
        path_params := []
        query_params := ["assetIDs"] })
  , ("exchanges.list",
      { method := "GET"
        path := "/metrics/v1/exchanges"
        path_params := []
        query_params := ["limit", "pageSize", "page", "type", "typeRankCutoff"] })
  , ("exchanges.get",
      { method := "GET"
        path := "/metrics/v1/exchanges/{exchangeIdentifier}"
        path_params := ["exchangeIdentifier"]
        query_params := [] })
  , ("news.feed",
      { method := "GET"
        path := "/news/v1/news/feed"
        path_params := []
        query_params :=
          ["publishedBefore", "publishedAfter", "sourceTypes", "sourceIds",
           "assetIds", "sort", "limit", "page"] })
  , ("news.sources",
      { method := "GET"
        path := "/news/v1/news/sources"
        path_params := []
        query_params := ["sourceName", "sourceTypes", "limit", "page"] })
  ]

/-- `MessariClient._normalize_query_params`: the loop body maps
`bool` values to the literal strings `"true"`/`"false"` and copies every
other entry unchanged into the fresh `normalized` dict. -/
def normalize_query_params : PyDict → PyDict
  | [] => []
  | (k, .vBool b) :: rest =>
      (k, .vStr (if b then "true" else "false")) :: normalize_query_params rest
  | (k, v) :: rest => (k, v) :: normalize_query_params rest

/-- `MessariClient._filter_query_params` with the registry lookup already
performed: `allowed_qp = set(spec.get("query_params", []) or [])`; if the
allowed set is non-empty keep whitelisted non-`None` entries, otherwise keep
all non-`None` entries; finally normalize. -/
def filter_query_params (allowed_qp : List String) (query_params : PyDict) : PyDict :=
  let raw :=
    if !allowed_qp.isEmpty then
      query_params.filter (fun kv => allowed_qp.contains kv.1 && !kv.2.isNone)
    else
      query_params.filter (fun kv => !kv.2.isNone)
  normalize_query_params raw

/-- The transport's response object, as far as the client core inspects it:
the status code, the body text (`resp.content` is its encoded form,
`resp.text` its decoded form; both are one string here), and the result of
`resp.json()` (`none` when parsing raises). -/
structure HttpResponse where
  status_code : Nat
  content : String
  json : Option PyVal
deriving Repr

/-- Python `str.strip()`: remove leading and trailing whitespace. -/
def strStrip (s : String) : String :=
  String.mk (((s.data.dropWhile Char.isWhitespace).reverse.dropWhile
    Char.isWhitespace).reverse)

/-- The message synthesized by `_raise_for_status`:
`msg = text.strip() or f"HTTP \x7bresp.status_code\x7d"`. -/
def statusMessage (text : String) (status : Nat) : String :=
  if strStrip text = "" then "HTTP " ++ toString status else strStrip text

/-- Outcome of `MessariClient._raise_for_status`: either a plain return
(2xx) or one of the exception classes from `exceptions.py`, each carrying
`status_code`, the message, `error_body` and `url`. -/
inductive ClassifyResult where
  | success
  | authError (status : Nat) (message : String) (body : Option PyVal) (url : Option String)
  | rateLimitError (status : Nat) (message : String) (body : Option PyVal) (url : Option String)
  | apiError (status : Nat) (message : String) (body : Option PyVal) (url : Option String)
deriving Repr, BEq

/-- `MessariClient._raise_for_status`: return on 2xx, else classify by
status code (`401`/`403` auth, `429` rate limit, otherwise generic), with
`msg = text.strip() or "HTTP <status>"` and `body = resp.json()` on a
best-effort basis. -/
def raise_for_status (resp : HttpResponse) (url : Option String) : ClassifyResult :=
  if 200 ≤ resp.status_code ∧ resp.status_code < 300 then
    .success
  else
    let msg := statusMessage resp.content resp.status_code
    if resp.status_code = 401 ∨ resp.status_code = 403 then
      .authError resp.status_code msg resp.json url
    else if resp.status_code = 429 then
      .rateLimitError resp.status_code msg resp.json url
    else
      .apiError resp.status_code msg resp.json url

/-- The message carried by the classification outcome (`none` on success). -/
def ClassifyResult.messageOf : ClassifyResult → Option String
  | .success => none
  | .authError _ m _ _ => some m
  | .rateLimitError _ m _ _ => some m
  | .apiError _ m _ _ => some m

/-- The best-effort decoded body carried by the outcome (`none` on success). -/
def ClassifyResult.bodyOf : ClassifyResult → Option (Option PyVal)
  | .success => none
  | .authError _ _ b _ => some b
  | .rateLimitError _ _ b _ => some b
  | .apiError _ _ b _ => some b

/-- Which error kind (exception class) an outcome is: `0` success,
`1` `MessariAuthError`, `2` `MessariRateLimitError`, `3` `MessariAPIError`. -/
def ClassifyResult.kindOf : ClassifyResult → Nat
  | .success => 0
  | .authError _ _ _ _ => 1
  | .rateLimitError _ _ _ _ => 2
  | .apiError _ _ _ _ => 3

/-- Errors `str.format` can raise during path substitution: a missing key
(`KeyError`, named) or a malformed template (`ValueError`). -/
inductive FmtError where
  | keyError (name : String)
  | valueError
deriving Repr, DecidableEq

/-- Core of `path_template.format(**path_params)` on templates whose
placeholders are plain names: scans the character list; `inPh = true` means
we are inside `\x7b...\x7d` accumulating the placeholder name (reversed) in
`acc`.  A placeholder is replaced by the looked-up value; a missing key is a
`KeyError` naming it; an unterminated placeholder is a `ValueError`. -/
def fmtAux (m : List (String × String)) : List Char → List Char → Bool → Except FmtError String
  | [], _, true => .error .valueError
  | [], _, false => .ok ""
  | c :: rest, acc, true =>
      if c = '}' then
        match m.lookup (String.mk acc.reverse) with
        | some v =>
            match fmtAux m rest [] false with
            | .ok s => .ok (v ++ s)
            | .error e => .error e
        | none => .error (.keyError (String.mk acc.reverse))
      else fmtAux m rest (c :: acc) true
  | c :: rest, acc, false =>
      if c = '{' then fmtAux m rest [] true
      else
        match fmtAux m rest acc false with
        | .ok s => .ok (String.singleton c ++ s)
        | .error e => .error e

/-- `template.format(**path_params)` with values modelled as strings. -/
def formatTemplate (template : String) (path_params : List (String × String)) :
    Except FmtError String :=
  fmtAux path_params template.data [] false

/-- The placeholder names of a template, in order of appearance (same scan
as `fmtAux`). -/
def phAux : List Char → List Char → Bool → List String
  | [], _, _ => []
  | c :: rest, acc, true =>
      if c = '}' then String.mk acc.reverse :: phAux rest [] false
      else phAux rest (c :: acc) true
  | c :: rest, acc, false =>
      if c = '{' then phAux rest [] true
      else phAux rest acc false

/-- Placeholders of a path template. -/
def placeholders (template : String) : List String :=
  phAux template.data [] false

/-- Python `str.upper()` (character-wise uppercasing). -/
def strUpper (s : String) : String := String.mk (s.data.map Char.toUpper)

/-- `MessariClient.call` up to (but not including) the transport
invocation: either one of the pre-network `ValueError`s, or the request the
client hands to `self.session.request` (method, url, filtered params).
The JSON body and headers carry no claim-relevant logic and are omitted. -/
inductive CallStage where
  | unknownEndpoint (api_name : String)
  | missingPathParam (name : String) (api_name : String) (template : String)
  | formatFailure
  | request (method : String) (url : String) (params : PyDict)
deriving Repr, BEq

/-- The pre-network part of `MessariClient.call`: registry lookup
(`ValueError` on unknown `api_name`), path substitution (`ValueError`
naming the missing key and the template on `KeyError`), URL assembly
`url = base_url + path`, and query filtering. -/
def buildRequest (base_url api_name : String) (path_params : List (String × String))
    (query_params : PyDict) : CallStage :=
  match MESSARI_API_REGISTRY.lookup api_name with
  | none => .unknownEndpoint api_name
  | some spec =>
      match formatTemplate spec.path path_params with
      | .error (.keyError name) => .missingPathParam name api_name spec.path
      | .error .valueError => .formatFailure
      | .ok path =>
          .request (strUpper spec.method) (base_url ++ path)
            (filter_query_params spec.query_params query_params)

/-- What `MessariClient.call` (with `raw=False`) returns or raises. -/
inductive CallOutcome where
  | valueErrorUnknown (api_name : String)
  | valueErrorMissingPathParam (name : String) (api_name : String) (template : String)
  | valueErrorFormat
  | apiFailure (c : ClassifyResult)
  | jsonDecodeError
  | ok (payload : Option PyVal)
deriving Repr, BEq

/-- `MessariClient.call` with `raw=False`: build the request, send it
through the transport, run `_raise_for_status`, then return `None` on an
empty body and `resp.json()` otherwise (a decode failure raises). -/
def call (base_url api_name : String) (path_params : List (String × String))
    (query_params : PyDict)
    (transport : String → String → PyDict → HttpResponse) : CallOutcome :=
  match buildRequest base_url api_name path_params query_params with
  | .unknownEndpoint n => .valueErrorUnknown n
  | .missingPathParam n a t => .valueErrorMissingPathParam n a t
  | .formatFailure => .valueErrorFormat
  | .request method url params =>
      let resp := transport method url params
      match raise_for_status resp (some url) with
      | .success =>
          if resp.content = "" then .ok none
          else
            match resp.json with
            | some v => .ok (some v)
            | none => .jsonDecodeError
      | c => .apiFailure c

/-- A heap of Python dict objects, addressed by allocation order.  Reading
an unallocated reference yields the empty dict (never happens in the
modelled code paths). -/
abbrev Heap := List PyDict

/-- Dereference a dict object. -/
def readH (h : Heap) (r : Nat) : PyDict :=
  h.getD r []

/-- Overwrite a dict object in place. -/
def writeH (h : Heap) (r : Nat) (d : PyDict) : Heap :=
  h.set r d

/-- Python `d[k] = v` on an insertion-ordered dict: replace the value at
`k`'s existing position, else append a fresh entry. -/
def dictSet (d : PyDict) (k : String) (v : PyVal) : PyDict :=
  if d.any (fun kv => kv.1 == k) then
    d.map (fun kv => if kv.1 == k then (k, v) else kv)
  else
    d ++ [(k, v)]

/-- Python `page += 1` on the dynamic page value: defined for ints (and
bools, which are ints in Python); anything else is a `TypeError`. -/
def addOne : PyVal → Option PyVal
  | .vInt n => some (.vInt (n + 1))
  | .vBool b => some (.vInt ((if b then 1 else 0) + 1))
  | _ => none

/-- How a `paged_call` run can abort: an exception from an inner `call`,
or the `TypeError` from `page += 1` on a non-numeric page value. -/
inductive PagedErr (ε : Type) where
  | callErr (e : ε)
  | typeError
deriving Repr, BEq

/-- The `for _ in range(max_pages)` loop of `paged_call`, acting on the
copied dict at reference `r`: each round executes `qp[page_param] = page`,
invokes `call` on the current dict value, appends the result, and
increments `page`.  Returns the final heap, the trace of dict values passed
to `call` (the issued requests, in order), and the accumulated results or
the first raised error. -/
def pagedLoop (callFn : PyDict → Except ε α) (page_param : String) :
    Heap → Nat → PyVal → Nat → Heap × (List PyDict × Except (PagedErr ε) (List α))
  | h, _, _, 0 => (h, ([], .ok []))
  | h, r, page, n + 1 =>
      let h1 := writeH h r (dictSet (readH h r) page_param page)
      let req := readH h1 r
      match callFn req with
      | .error e => (h1, ([req], .error (.callErr e)))
      | .ok data =>
          match addOne page with
          | none => (h1, ([req], .error .typeError))
          | some page1 =>
              match pagedLoop callFn page_param h1 r page1 n with
              | (h2, (reqs, .ok rest)) => (h2, (req :: reqs, .ok (data :: rest)))
              | (h2, (reqs, .error e)) => (h2, (req :: reqs, .error e))

/-- `MessariClient.paged_call`, with the inner `call` abstracted as
`callFn` and the caller's `query_params` dict living on the heap at
`qpRef`: copies the caller's dict (`qp = dict(query_params or \x7b\x7d)`)
into a fresh object, reads the starting page
(`page = qp.get(page_param, 0)`), and runs the loop on the copy. -/
def paged_call (callFn : PyDict → Except ε α) (h : Heap) (qpRef : Nat)
    (page_param : String) (max_pages : Nat) :
    Heap × (List PyDict × Except (PagedErr ε) (List α)) :=
  let qp0 := readH h qpRef
  let h1 := h ++ [qp0]
  let page := (qp0.lookup page_param).getD (.vInt 0)
  pagedLoop callFn page_param h1 h.length page max_pages

/-- The normalization applied to one query value by
`_normalize_query_params`. -/
def normOne : PyVal → PyVal
  | .vBool b => .vStr (if b then "true" else "false")
  | v => v

/-- The sequence of dict values `paged_call` hands to `call`: the caller's
dict with the page parameter set to `p`, `p + 1`, ..., `p + n - 1`. -/
def pageDicts (qp : PyDict) (param : String) (p : Int) (n : Nat) : List PyDict :=
  (List.range n).map (fun (i : Nat) => dictSet qp param (.vInt (p + (i : Int))))

/-! ## Helper lemmas -/

theorem mem_of_lookup_eq_some {β : Type} (l : List (String × β)) (k : String) (v : β)
    (h : l.lookup k = some v) : (k, v) ∈ l := by
  induction l with
  | nil => cases h
  | cons kv rest ih =>
    cases kv with
    | mk k1 v1 =>
      rw [List.lookup] at h
      by_cases hk : k == k1
      · simp only [hk] at h
        cases h
        simp_all
      · simp only [Bool.not_eq_true] at hk
        simp only [hk] at h
        exact List.mem_cons_of_mem _ (ih h)

theorem lookup_append_of_isSome {β : Type} (l1 l2 : List (String × β)) (k : String)
    (h : (l1.lookup k).isSome) : (l1 ++ l2).lookup k = l1.lookup k := by
  induction l1 with
  | nil => simp at h
  | cons kv rest ih =>
    cases kv with
    | mk k1 v1 =>
      by_cases hk : k == k1
      · simp only [List.cons_append, List.lookup, hk]
      · simp only [Bool.not_eq_true] at hk
        simp only [List.cons_append, List.lookup, hk] at h ⊢
        exact ih h

theorem normalize_eq_map (params : PyDict) :
    normalize_query_params params = params.map (fun kv => (kv.1, normOne kv.2)) := by
  induction params with
  | nil => rfl
  | cons kv rest ih =>
    cases kv with
    | mk k v => cases v <;> simp [normalize_query_params, normOne, ih]

theorem normalize_map_fst (params : PyDict) :
    (normalize_query_params params).map Prod.fst = params.map Prod.fst := by
  rw [normalize_eq_map, List.map_map]
  rfl

theorem fmtAux_agree (m1 m2 : List (String × String)) :
    ∀ (l acc : List Char) (flag : Bool),
      (∀ p ∈ phAux l acc flag, m1.lookup p = m2.lookup p) →
      fmtAux m1 l acc flag = fmtAux m2 l acc flag := by
  intro l
  induction l with
  | nil => intro acc flag _; cases flag <;> rfl
  | cons c rest ih =>
    intro acc flag hag
    cases flag with
    | true =>
      by_cases hc : c = '}'
      · subst hc
        simp only [fmtAux]
        have hname : m1.lookup (String.mk acc.reverse) = m2.lookup (String.mk acc.reverse) := by
          apply hag
          simp [phAux]
        rw [hname]
        cases hm : m2.lookup (String.mk acc.reverse) with
        | none => rfl
        | some v =>
          rw [ih [] false (fun p hp => hag p (by simp [phAux, hp]))]
          simp
      · simp only [fmtAux, if_neg hc]
        exact ih (c :: acc) true (fun p hp => hag p (by simpa [phAux, if_neg hc] using hp))
    | false =>
      by_cases hc : c = '{'
      · subst hc
        simp only [fmtAux, if_pos rfl]
        exact ih [] true (fun p hp => hag p (by simpa [phAux] using hp))
      · simp only [fmtAux, if_neg hc]
        rw [ih acc false (fun p hp => hag p (by simpa [phAux, if_neg hc] using hp))]

theorem replace_twice (d : PyDict) (k : String) (v v2 : PyVal) :
    (d.map (fun kv => if kv.1 == k then (k, v) else kv)).map
        (fun kv => if kv.1 == k then (k, v2) else kv) =
      d.map (fun kv => if kv.1 == k then (k, v2) else kv) := by
  rw [List.map_map]
  apply List.map_congr_left
  intro kv _
  by_cases h : kv.1 == k
  · simp only [Function.comp, if_pos h]
    rw [if_pos (by simp : (((k, v) : String × PyVal).1 == k) = true)]
  · simp only [Function.comp, if_neg h]

theorem any_key_replace (d : PyDict) (k : String) (v : PyVal) :
    (d.map (fun kv => if kv.1 == k then (k, v) else kv)).any (fun kv => kv.1 == k) =
      d.any (fun kv => kv.1 == k) := by
  induction d with
  | nil => rfl
  | cons kv d ih =>
    simp only [List.map_cons, List.any_cons, ih]
    by_cases h : kv.1 == k
    · rw [if_pos h]
      simp only [h]
      simp
    · rw [if_neg h]

theorem no_key_replace (d : PyDict) (k : String) (v : PyVal)
    (h : (d.any (fun kv => kv.1 == k)) = false) :
    d.map (fun kv => if kv.1 == k then (k, v) else kv) = d := by
  have hall : ∀ kv ∈ d, (kv.1 == k) = false := by
    intro kv hkv
    by_contra hne
    rw [List.any_eq_false] at h
    exact h kv hkv (by simpa using hne)
  conv_rhs => rw [show d = d.map id from (List.map_id d).symm]
  apply List.map_congr_left
  intro kv hkv
  rw [if_neg (by rw [hall kv hkv]; exact Bool.false_ne_true)]
  rfl

theorem dictSet_dictSet (d : PyDict) (k : String) (v v2 : PyVal) :
    dictSet (dictSet d k v) k v2 = dictSet d k v2 := by
  by_cases h : d.any (fun kv => kv.1 == k)
  · have h1 : dictSet d k v = d.map (fun kv => if kv.1 == k then (k, v) else kv) := by
      rw [dictSet, if_pos h]
    have h2 : dictSet d k v2 = d.map (fun kv => if kv.1 == k then (k, v2) else kv) := by
      rw [dictSet, if_pos h]
    rw [h1, h2, dictSet, if_pos (by rw [any_key_replace]; exact h)]
    exact replace_twice d k v v2
  · have h1 : dictSet d k v = d ++ [(k, v)] := by rw [dictSet, if_neg h]
    have h2 : dictSet d k v2 = d ++ [(k, v2)] := by rw [dictSet, if_neg h]
    rw [h1, h2, dictSet, if_pos (by simp [List.any_append]), List.map_append,
      no_key_replace d k v2 (Bool.eq_false_iff.mpr h)]
    simp

theorem readH_writeH_same (h : Heap) (r : Nat) (d : PyDict) (hr : r < h.length) :
    readH (writeH h r d) r = d := by
  rw [readH, writeH, List.getD, List.get?_eq_getElem?, List.getElem?_set_self]
  · rfl
  · exact hr

theorem readH_writeH_ne (h : Heap) (r j : Nat) (d : PyDict) (hj : j ≠ r) :
    readH (writeH h r d) j = readH h j := by
  rw [readH, writeH, readH, List.getD, List.getD, List.get?_eq_getElem?,
    List.get?_eq_getElem?, List.getElem?_set_ne (fun he => hj he.symm)]

theorem readH_concat (h : Heap) (d : PyDict) :
    readH (h ++ [d]) h.length = d := by
  rw [readH, List.getD, List.get?_eq_getElem?, List.getElem?_concat_length]
  rfl

theorem readH_append_left (h : Heap) (h2 : Heap) (j : Nat) (hj : j < h.length) :
    readH (h ++ h2) j = readH h j := by
  rw [readH, readH, List.getD, List.getD, List.get?_eq_getElem?, List.get?_eq_getElem?,
    List.getElem?_append_left hj]

theorem pageDicts_dictSet (qp : PyDict) (param : String) (v : PyVal) (p : Int) (n : Nat) :
    pageDicts (dictSet qp param v) param p n = pageDicts qp param p n := by
  unfold pageDicts
  apply List.map_congr_left
  intro i _
  exact dictSet_dictSet qp param v (.vInt (p + i))

theorem pageDicts_succ (qp : PyDict) (param : String) (p : Int) (n : Nat) :
    pageDicts qp param p (n + 1) =
      dictSet qp param (.vInt p) :: pageDicts qp param (p + 1) n := by
  unfold pageDicts
  rw [List.range_succ_eq_map, List.map_cons, List.map_map]
  congr 1
  · norm_num
  · apply List.map_congr_left
    intro i _
    simp only [Function.comp]
    congr 2
    push_cast
    ring

theorem pagedLoop_ok {ε α : Type} (callFn : PyDict → Except ε α) (f : PyDict → α)
    (hcall : ∀ d, callFn d = .ok (f d)) (param : String) :
    ∀ (n : Nat) (h : Heap) (r : Nat) (p : Int), r < h.length →
      (pagedLoop callFn param h r (.vInt p) n).2 =
        (pageDicts (readH h r) param p n,
         .ok ((pageDicts (readH h r) param p n).map f)) := by
  intro n
  induction n with
  | zero => intro h r p _; rfl
  | succ n ih =>
    intro h r p hr
    have hlen : r < (writeH h r (dictSet (readH h r) param (.vInt p))).length := by
      simpa [writeH] using hr
    have hrd : readH (writeH h r (dictSet (readH h r) param (.vInt p))) r =
        dictSet (readH h r) param (.vInt p) := readH_writeH_same _ _ _ hr
    have hih := ih (writeH h r (dictSet (readH h r) param (.vInt p))) r (p + 1) hlen
    rw [hrd, pageDicts_dictSet] at hih
    rcases hres : pagedLoop callFn param
        (writeH h r (dictSet (readH h r) param (.vInt p))) r (.vInt (p + 1)) n with
      ⟨h2, reqs, res⟩
    rw [hres] at hih
    simp only at hih
    rw [Prod.mk.injEq] at hih
    obtain ⟨hreqs, hres2⟩ := hih
    subst hreqs
    subst hres2
    simp only [pagedLoop, hcall, addOne, hrd, hres]
    rw [pageDicts_succ]
    simp

theorem pagedLoop_frame {ε α : Type} (callFn : PyDict → Except ε α) (param : String) :
    ∀ (n : Nat) (h : Heap) (r : Nat) (page : PyVal) (j : Nat), j ≠ r →
      readH (pagedLoop callFn param h r page n).1 j = readH h j := by
  intro n
  induction n with
  | zero => intro h r page j _; rfl
  | succ n ih =>
    intro h r page j hj
    have hw : readH (writeH h r (dictSet (readH h r) param page)) j = readH h j :=
      readH_writeH_ne h r j _ hj
    simp only [pagedLoop]
    cases hc : callFn (readH (writeH h r (dictSet (readH h r) param page)) r) with
    | error e => simpa using hw
    | ok data =>
      cases ha : addOne page with
      | none => simpa using hw
      | some page1 =>
        rcases hres : pagedLoop callFn param
            (writeH h r (dictSet (readH h r) param page)) r page1 n with ⟨h2, reqs, res⟩
        have hih := ih (writeH h r (dictSet (readH h r) param page)) r page1 j hj
        rw [hres] at hih
        simp only at hih
        cases res with
        | ok rest =>
          simp only [hres]
          exact hih.trans hw
        | error e =>
          simp only [hres]
          exact hih.trans hw

theorem pagedLoop_value_dep {ε α : Type} (callFn : PyDict → Except ε α) (param : String) :
    ∀ (n : Nat) (hA hB : Heap) (rA rB : Nat) (page : PyVal),
      rA < hA.length → rB < hB.length → readH hA rA = readH hB rB →
      (pagedLoop callFn param hA rA page n).2 = (pagedLoop callFn param hB rB page n).2 := by
  intro n
  induction n with
  | zero => intro hA hB rA rB page _ _ _; rfl
  | succ n ih =>
    intro hA hB rA rB page hrA hrB hval
    have hrdA : readH (writeH hA rA (dictSet (readH hA rA) param page)) rA =
        dictSet (readH hA rA) param page := readH_writeH_same _ _ _ hrA
    have hrdB : readH (writeH hB rB (dictSet (readH hB rB) param page)) rB =
        dictSet (readH hB rB) param page := readH_writeH_same _ _ _ hrB
    have hreq : readH (writeH hA rA (dictSet (readH hA rA) param page)) rA =
        readH (writeH hB rB (dictSet (readH hB rB) param page)) rB := by
      rw [hrdA, hrdB, hval]
    have hlenA : rA < (writeH hA rA (dictSet (readH hA rA) param page)).length := by
      simpa [writeH] using hrA
    have hlenB : rB < (writeH hB rB (dictSet (readH hB rB) param page)).length := by
      simpa [writeH] using hrB
    simp only [pagedLoop, hreq]
    cases hc : callFn (readH (writeH hB rB (dictSet (readH hB rB) param page)) rB) with
    | error e => simp [hreq]
    | ok data =>
      cases ha : addOne page with
      | none => simp [hreq]
      | some page1 =>
        have hih := ih (writeH hA rA (dictSet (readH hA rA) param page))
          (writeH hB rB (dictSet (readH hB rB) param page)) rA rB page1 hlenA hlenB hreq
        rcases hresA : pagedLoop callFn param
            (writeH hA rA (dictSet (readH hA rA) param page)) rA page1 n with ⟨h2A, reqsA, resA⟩
        rcases hresB : pagedLoop callFn param
            (writeH hB rB (dictSet (readH hB rB) param page)) rB page1 n with ⟨h2B, reqsB, resB⟩
        rw [hresA, hresB] at hih
        simp only at hih
        rw [Prod.mk.injEq] at hih
        obtain ⟨hreqs, hres2⟩ := hih
        subst hreqs
        subst hres2
        cases resA <;> simp [hresA, hresB]

theorem registry_placeholders :
    ∀ kv ∈ MESSARI_API_REGISTRY, placeholders kv.2.path = kv.2.path_params := by
  decide

/-! ## Claim theorems -/

/-- C1: status-code classification is total and exclusive.  For every
integer status in `[100, 599]`, `_raise_for_status` yields exactly one
outcome: return (success) for `200-299`, `MessariAuthError` for `401` and
`403`, `MessariRateLimitError` for `429`, and `MessariAPIError` for every
other non-2xx status; each error carries the status code, the message, the
best-effort decoded body, and the request URL. -/
theorem c1_status_classification (s : Nat) (hlo : 100 ≤ s) (hhi : s ≤ 599)
    (text : String) (j : Option PyVal) (u : String) :
    (200 ≤ s ∧ s < 300 →
      raise_for_status ⟨s, text, j⟩ (some u) = .success) ∧
    (s = 401 ∨ s = 403 →
      raise_for_status ⟨s, text, j⟩ (some u) =
        .authError s (statusMessage text s) j (some u)) ∧
    (s = 429 →
      raise_for_status ⟨s, text, j⟩ (some u) =
        .rateLimitError s (statusMessage text s) j (some u)) ∧
    (¬(200 ≤ s ∧ s < 300) ∧ s ≠ 401 ∧ s ≠ 403 ∧ s ≠ 429 →
      raise_for_status ⟨s, text, j⟩ (some u) =
        .apiError s (statusMessage text s) j (some u)) := by
  refine ⟨?_, ?_, ?_, ?_⟩
  · intro h
    rw [raise_for_status, if_pos h]
  · intro h
    have h2xx : ¬(200 ≤ s ∧ s < 300) := by omega
    rw [raise_for_status, if_neg h2xx, if_pos h]
  · intro h
    have h2xx : ¬(200 ≤ s ∧ s < 300) := by omega
    have hauth : ¬(s = 401 ∨ s = 403) := by omega
    rw [raise_for_status, if_neg h2xx, if_neg hauth, if_pos h]
  · intro h
    obtain ⟨h2xx, h401, h403, h429⟩ := h
    have hauth : ¬(s = 401 ∨ s = 403) := by omega
    rw [raise_for_status, if_neg h2xx, if_neg hauth, if_neg h429]

/-- C1 witness: classification at concrete statuses 204, 401, 429, 500. -/
theorem c1_status_classification_witness :
    raise_for_status ⟨204, "x", none⟩ (some "u") = .success ∧
    raise_for_status ⟨401, "denied", none⟩ (some "u") =
      .authError 401 (statusMessage "denied" 401) none (some "u") ∧
    raise_for_status ⟨429, "slow", none⟩ (some "u") =
      .rateLimitError 429 (statusMessage "slow" 429) none (some "u") ∧
    raise_for_status ⟨500, "boom", none⟩ (some "u") =
      .apiError 500 (statusMessage "boom" 500) none (some "u") :=
  ⟨(c1_status_classification 204 (by omega) (by omega) "x" none "u").1 (by omega),
   (c1_status_classification 401 (by omega) (by omega) "denied" none "u").2.1 (Or.inl rfl),
   (c1_status_classification 429 (by omega) (by omega) "slow" none "u").2.2.1 rfl,
   (c1_status_classification 500 (by omega) (by omega) "boom" none "u").2.2.2
     (by refine ⟨by omega, by omega, by omega, by omega⟩)⟩

/-- C2: query filtering first drops `None`-valued entries, then keeps
exactly the whitelisted keys when the descriptor's allowed set is
non-empty, and keeps every caller key when the allowed set is empty
(allow-all); no key is ever added (output keys are a sublist of the
caller's keys). -/
theorem c2_query_filtering (allowed : List String) (qp : PyDict) :
    (allowed = [] →
      filter_query_params allowed qp =
        normalize_query_params (qp.filter (fun kv => !kv.2.isNone))) ∧
    (allowed ≠ [] →
      filter_query_params allowed qp =
        normalize_query_params
          ((qp.filter (fun kv => !kv.2.isNone)).filter
            (fun kv => allowed.contains kv.1))) ∧
    ((filter_query_params allowed qp).map Prod.fst).Sublist (qp.map Prod.fst) := by
  refine ⟨?_, ?_, ?_⟩
  · intro h
    subst h
    rfl
  · intro h
    have hne : (!allowed.isEmpty) = true := by
      cases allowed with
      | nil => exact absurd rfl h
      | cons a l => rfl
    rw [filter_query_params]
    simp only [hne, if_pos]
    rw [List.filter_filter]
  · rw [filter_query_params]
    by_cases h : (!allowed.isEmpty) = true
    · simp only [h, if_pos]
      rw [normalize_map_fst]
      exact ((List.filter_sublist qp).map Prod.fst)
    · rw [if_neg h, normalize_map_fst]
      exact ((List.filter_sublist qp).map Prod.fst)

/-- C2 witness: a non-empty allowed set keeps exactly the whitelisted
non-`None` entries, and an empty allowed set passes all keys through. -/
theorem c2_query_filtering_witness :
    filter_query_params ["a"] [("a", .vInt 1), ("b", .vInt 2), ("c", .vNone)] =
      normalize_query_params
        (([("a", PyVal.vInt 1), ("b", .vInt 2), ("c", .vNone)].filter
          (fun kv => !kv.2.isNone)).filter
            (fun kv => (["a"] : List String).contains kv.1)) ∧
    filter_query_params [] [("a", .vNone), ("b", .vInt 2)] =
      normalize_query_params
        ([("a", PyVal.vNone), ("b", .vInt 2)].filter (fun kv => !kv.2.isNone)) :=
  ⟨(c2_query_filtering ["a"] _).2.1 (by simp),
   (c2_query_filtering [] _).1 rfl⟩

/-- C5: query-value normalization maps boolean `True`/`False` to the
literal strings `"true"`/`"false"` and leaves every non-boolean value
(numbers, strings, lists) unmodified; in particular the integers `0` and
`1` are not altered. -/
theorem c5_bool_normalization (params : PyDict) (v : PyVal)
    (hv : ∀ b, v ≠ .vBool b) :
    normalize_query_params params = params.map (fun kv => (kv.1, normOne kv.2)) ∧
    normOne (.vBool true) = .vStr "true" ∧
    normOne (.vBool false) = .vStr "false" ∧
    normOne v = v ∧
    normOne (.vInt 0) = .vInt 0 ∧
    normOne (.vInt 1) = .vInt 1 := by
  refine ⟨normalize_eq_map params, rfl, rfl, ?_, rfl, rfl⟩
  cases v with
  | vBool b => exact absurd rfl (hv b)
  | vNone => rfl
  | vInt n => rfl
  | vStr s => rfl
  | vList xs => rfl

/-- C5 witness: normalization on a concrete map with booleans, ints and a
non-boolean value. -/
theorem c5_bool_normalization_witness :
    normalize_query_params
        [("a", .vBool true), ("b", .vBool false), ("c", .vInt 0), ("d", .vInt 1)] =
      [("a", PyVal.vStr "true"), ("b", .vStr "false"), ("c", .vInt 0), ("d", .vInt 1)] ∧
    normOne (.vStr "x") = PyVal.vStr "x" := by
  have h := c5_bool_normalization
    [("a", .vBool true), ("b", .vBool false), ("c", .vInt 0), ("d", .vInt 1)]
    (.vStr "x") (by intro b hb; cases hb)
  exact ⟨by rw [h.1]; rfl, h.2.2.2.1⟩

/-- C7 counterexample: the claim says the error message is the response
body text whenever that text is non-empty, but for status 500 with the
non-empty, whitespace-only body `" "` the code synthesizes `"HTTP 500"`
(it uses `text.strip()`, and the stripped text is empty). -/
theorem c7_counterexample :
    (" " : String) ≠ "" ∧
    (raise_for_status ⟨500, " ", none⟩ (some "u")).messageOf ≠ some " " ∧
    (raise_for_status ⟨500, " ", none⟩ (some "u")).messageOf = some "HTTP 500" := by
  refine ⟨by decide, by decide, by decide⟩

/-- C7 amended: for every non-2xx response, the error's message is the
whitespace-stripped response body text when that stripped text is
non-empty, and otherwise the synthesized string `"HTTP <status>"`; the
error's `body` field is the best-effort decoded payload (absent when
undecodable), and a failure to decode the body never changes which error
kind the status maps to. -/
theorem c7_error_message_and_body (s : Nat) (text : String) (j j2 : Option PyVal)
    (u : Option String) (hs : ¬(200 ≤ s ∧ s < 300)) :
    ((raise_for_status ⟨s, text, j⟩ u).messageOf =
      some (if strStrip text = "" then "HTTP " ++ toString s else strStrip text)) ∧
    ((raise_for_status ⟨s, text, j⟩ u).bodyOf = some j) ∧
    ((raise_for_status ⟨s, text, j⟩ u).kindOf =
      (raise_for_status ⟨s, text, j2⟩ u).kindOf) := by
  rw [raise_for_status, raise_for_status, if_neg hs, if_neg hs]
  by_cases h1 : (⟨s, text, j⟩ : HttpResponse).status_code = 401 ∨
      (⟨s, text, j⟩ : HttpResponse).status_code = 403
  · rw [if_pos h1, if_pos h1]
    exact ⟨rfl, rfl, rfl⟩
  · rw [if_neg h1, if_neg h1]
    by_cases h2 : (⟨s, text, j⟩ : HttpResponse).status_code = 429
    · rw [if_pos h2, if_pos h2]
      exact ⟨rfl, rfl, rfl⟩
    · rw [if_neg h2, if_neg h2]
      exact ⟨rfl, rfl, rfl⟩

/-- C7 witness: a 404 with body `"nf"` and decodable payload carries
message `"nf"` and that payload; kind is unchanged when decoding fails. -/
theorem c7_error_message_and_body_witness :
    (raise_for_status ⟨404, "nf", some (.vStr "e")⟩ (some "u")).messageOf = some "nf" ∧
    (raise_for_status ⟨404, "nf", some (.vStr "e")⟩ (some "u")).bodyOf =
      some (some (.vStr "e")) ∧
    (raise_for_status ⟨404, "nf", some (.vStr "e")⟩ (some "u")).kindOf =
      (raise_for_status ⟨404, "nf", none⟩ (some "u")).kindOf := by
  have h := c7_error_message_and_body 404 "nf" (some (.vStr "e")) none (some "u") (by omega)
  exact ⟨by rw [h.1]; rfl, h.2.1, h.2.2⟩

/-- C8: for every registered endpoint, the path template's placeholders
exactly match (as an ordered list, hence each exactly once) the declared
path-parameter set, and the registry's keys are globally unique. -/
theorem c8_registry_wellformed :
    (MESSARI_API_REGISTRY.map Prod.fst).Nodup ∧
    ∀ kv ∈ MESSARI_API_REGISTRY, placeholders kv.2.path = kv.2.path_params := by
  decide

/-- C8 witness: the one parameterized endpoint, `exchanges.get`, has
exactly the placeholder `exchangeIdentifier`. -/
theorem c8_registry_wellformed_witness :
    placeholders "/metrics/v1/exchanges/{exchangeIdentifier}" = ["exchangeIdentifier"] :=
  c8_registry_wellformed.2
    ("exchanges.get",
      { method := "GET"
        path := "/metrics/v1/exchanges/{exchangeIdentifier}"
        path_params := ["exchangeIdentifier"]
        query_params := [] })
    (by decide)

/-- C3: `paged_call` with bound `max_pages` and an inner `call` that
returns normally on every page issues exactly `max_pages` requests, whose
page-index query values are `p0, p0 + 1, ..., p0 + max_pages - 1` when the
caller's query map binds the page parameter to integer `p0` (and start at
`0` when it is absent), regardless of the responses' content, and the
per-page results come back in request order. -/
theorem c3_paged_call_pages {ε α : Type} (callFn : PyDict → Except ε α)
    (f : PyDict → α) (hcall : ∀ d, callFn d = .ok (f d)) (h : Heap)
    (qpRef : Nat) (param : String) (n : Nat) (p0 : Int) :
    ((readH h qpRef).lookup param = some (.vInt p0) →
      (paged_call callFn h qpRef param n).2 =
        (pageDicts (readH h qpRef) param p0 n,
         .ok ((pageDicts (readH h qpRef) param p0 n).map f))) ∧
    ((readH h qpRef).lookup param = none →
      (paged_call callFn h qpRef param n).2 =
        (pageDicts (readH h qpRef) param 0 n,
         .ok ((pageDicts (readH h qpRef) param 0 n).map f))) := by
  have hlen : h.length < (h ++ [readH h qpRef]).length := by simp
  have hrd := readH_concat h (readH h qpRef)
  constructor
  · intro hp
    simp only [paged_call, hp, Option.getD_some]
    have hloop := pagedLoop_ok callFn f hcall param n (h ++ [readH h qpRef]) h.length p0 hlen
    rw [hrd] at hloop
    exact hloop
  · intro hp
    simp only [paged_call, hp, Option.getD_none]
    have hloop := pagedLoop_ok callFn f hcall param n (h ++ [readH h qpRef]) h.length 0 hlen
    rw [hrd] at hloop
    exact hloop

/-- C3 witness: a starting page of 3 and `max_pages = 2` issues exactly the
two requests with page values 3 and 4, in order. -/
theorem c3_paged_call_pages_witness :
    (paged_call (fun d => (.ok d : Except Unit PyDict)) [[("page", .vInt 3)]] 0 "page" 2).2 =
      (pageDicts [("page", PyVal.vInt 3)] "page" 3 2,
       .ok ((pageDicts [("page", PyVal.vInt 3)] "page" 3 2).map id)) :=
  (c3_paged_call_pages (fun d => (.ok d : Except Unit PyDict)) id (fun _ => rfl)
    [[("page", .vInt 3)]] 0 "page" 2 3).1 rfl

/-- C6: when the transport returns a success status with an empty body,
`call` (with `raw=False`) returns `None` rather than raising a decode
error; a non-empty 2xx body is decoded as structured data. -/
theorem c6_empty_success_body (base api : String) (pp : List (String × String))
    (qp : PyDict) (transport : String → String → PyDict → HttpResponse)
    (method url : String) (params : PyDict)
    (hreq : buildRequest base api pp qp = .request method url params)
    (hok : 200 ≤ (transport method url params).status_code ∧
           (transport method url params).status_code < 300) :
    ((transport method url params).content = "" →
      call base api pp qp transport = .ok none) ∧
    (∀ v, (transport method url params).json = some v →
      (transport method url params).content ≠ "" →
      call base api pp qp transport = .ok (some v)) := by
  have hrs : raise_for_status (transport method url params) (some url) = .success := by
    rw [raise_for_status, if_pos hok]
  constructor
  · intro hc
    simp only [call, hreq, hrs, hc]
    simp
  · intro v hv hc
    simp only [call, hreq, hrs, hv]
    rw [if_neg hc]

/-- C6 witness: a 200 response with empty body yields `.ok none`, a 200
response with body decoding to a value yields that value. -/
theorem c6_empty_success_body_witness :
    call "b" "assets.list" [] [] (fun _ _ _ => ⟨200, "", none⟩) = .ok none ∧
    call "b" "assets.list" [] []
        (fun _ _ _ => ⟨200, "[]", some (.vList [])⟩) = .ok (some (.vList [])) :=
  ⟨(c6_empty_success_body "b" "assets.list" [] [] (fun _ _ _ => ⟨200, "", none⟩)
      "GET" "b/metrics/v2/assets" [] rfl (by constructor <;> decide)).1 rfl,
   (c6_empty_success_body "b" "assets.list" [] [] (fun _ _ _ => ⟨200, "[]", some (.vList [])⟩)
      "GET" "b/metrics/v2/assets" [] rfl (by constructor <;> decide)).2
     (.vList []) rfl (by decide)⟩

/-- C9: parameter handling is deterministic and side-effect-free.
`paged_call`'s observable behaviour depends only on the value of the
caller's query dict, not on where it lives in the heap; and it never
mutates any pre-existing heap object — in particular the caller's query
map is unchanged, the page parameter being written only into the fresh
copy `paged_call` allocates. -/
theorem c9_resolution_side_effect_free {ε α : Type} (callFn : PyDict → Except ε α)
    (param : String) (n : Nat) (hA hB : Heap) (rA rB : Nat)
    (hval : readH hA rA = readH hB rB) :
    (paged_call callFn hA rA param n).2 = (paged_call callFn hB rB param n).2 ∧
    (∀ j, j < hA.length → readH (paged_call callFn hA rA param n).1 j = readH hA j) := by
  constructor
  · simp only [paged_call, hval]
    apply pagedLoop_value_dep
    · simp
    · simp
    · rw [readH_concat, readH_concat]
  · intro j hj
    simp only [paged_call]
    rw [pagedLoop_frame callFn param n (hA ++ [readH hA rA]) hA.length (_) j (by omega)]
    exact readH_append_left hA _ j hj

/-- C9 witness: the same query-map value stored at two different heap
locations yields identical results, and the caller's dict object is
unchanged after `paged_call`. -/
theorem c9_resolution_side_effect_free_witness :
    (paged_call (fun d => (.ok d : Except Unit PyDict)) [[("a", .vInt 1)]] 0 "page" 1).2 =
      (paged_call (fun d => (.ok d : Except Unit PyDict)) [[], [("a", .vInt 1)]] 1 "page" 1).2 ∧
    readH (paged_call (fun d => (.ok d : Except Unit PyDict))
      [[("a", .vInt 1)]] 0 "page" 1).1 0 = [("a", PyVal.vInt 1)] := by
  have h := c9_resolution_side_effect_free (fun d => (.ok d : Except Unit PyDict))
    "page" 1 [[("a", .vInt 1)]] [[], [("a", .vInt 1)]] 0 1 rfl
  exact ⟨h.1, h.2 0 (by decide)⟩

/-- C4: calling an endpoint name absent from the registry fails with the
unknown-endpoint `ValueError` before any network interaction, and calling
a registered endpoint whose path template has a placeholder missing from
the caller's path-parameter map fails with the missing-path-parameter
`ValueError` naming the placeholder and the template; in both cases no
transport request is built (the pre-network stage never reaches the
`request` outcome). -/
theorem c4_pre_network_failures (base api_name : String)
    (pp : List (String × String)) (qp : PyDict) :
    (MESSARI_API_REGISTRY.lookup api_name = none →
      buildRequest base api_name pp qp = .unknownEndpoint api_name ∧
      ∀ m u q, buildRequest base api_name pp qp ≠ .request m u q) ∧
    (∀ spec, MESSARI_API_REGISTRY.lookup api_name = some spec →
      (∃ p ∈ placeholders spec.path, pp.lookup p = none) →
      ∃ p ∈ placeholders spec.path, pp.lookup p = none ∧
        buildRequest base api_name pp qp = .missingPathParam p api_name spec.path ∧
        ∀ m u q, buildRequest base api_name pp qp ≠ .request m u q) := by
  constructor
  · intro hn
    have hb : buildRequest base api_name pp qp = .unknownEndpoint api_name := by
      simp only [buildRequest, hn]
    exact ⟨hb, fun m u q hc => by rw [hb] at hc; cases hc⟩
  · intro spec hlk hex
    have hmem := mem_of_lookup_eq_some _ _ _ hlk
    have hph := registry_placeholders _ hmem
    simp only [MESSARI_API_REGISTRY, List.mem_cons, List.not_mem_nil, or_false] at hmem
    rcases hmem with h | h | h | h | h | h
    all_goals obtain ⟨rfl, rfl⟩ := Prod.mk.injEq .. |>.mp h
    all_goals obtain ⟨p, hp, hnone⟩ := hex
    all_goals rw [hph] at hp
    all_goals simp at hp
    subst hp
    have hfmt : formatTemplate "/metrics/v1/exchanges/{exchangeIdentifier}" pp =
        formatTemplate "/metrics/v1/exchanges/{exchangeIdentifier}" [] := by
      apply fmtAux_agree
      intro q hq
      have hq2 : q ∈ placeholders "/metrics/v1/exchanges/{exchangeIdentifier}" := hq
      rw [show placeholders "/metrics/v1/exchanges/{exchangeIdentifier}" =
        ["exchangeIdentifier"] from rfl] at hq2
      simp at hq2
      subst hq2
      rw [hnone]
      rfl
    have hb : buildRequest base "exchanges.get" pp qp =
        .missingPathParam "exchangeIdentifier" "exchanges.get"
          "/metrics/v1/exchanges/{exchangeIdentifier}" := by
      simp only [buildRequest, hlk]
      rw [show formatTemplate "/metrics/v1/exchanges/{exchangeIdentifier}" pp =
        .error (.keyError "exchangeIdentifier") from hfmt.trans rfl]
    exact ⟨"exchangeIdentifier", by decide, hnone, hb,
      fun m u q hc => by rw [hb] at hc; cases hc⟩

/-- C4 witness: an unknown endpoint name, and `exchanges.get` called with
an empty path-parameter map. -/
theorem c4_pre_network_failures_witness :
    buildRequest "b" "nope" [] [] = .unknownEndpoint "nope" ∧
    (∃ p ∈ placeholders "/metrics/v1/exchanges/{exchangeIdentifier}",
      List.lookup p ([] : List (String × String)) = none ∧
        buildRequest "b" "exchanges.get" [] [] =
          .missingPathParam p "exchanges.get"
            "/metrics/v1/exchanges/{exchangeIdentifier}") := by
  refine ⟨((c4_pre_network_failures "b" "nope" [] []).1 rfl).1, ?_⟩
  obtain ⟨p, hp, hnone, hb, _⟩ :=
    (c4_pre_network_failures "b" "exchanges.get" [] []).2
      { method := "GET"
        path := "/metrics/v1/exchanges/{exchangeIdentifier}"
        path_params := ["exchangeIdentifier"]
        query_params := [] }
      rfl ⟨"exchangeIdentifier", by decide, rfl⟩
  exact ⟨p, hp, hnone, hb⟩

/-- C10: path substitution ignores surplus entries.  For every registered
endpoint, if the caller's path-parameter map covers every placeholder of
the path template, substitution succeeds, and appending extra entries not
consulted by the template changes neither the substitution result nor the
built request. -/
theorem c10_surplus_path_params (base api_name : String) (spec : EndpointSpec)
    (hlk : MESSARI_API_REGISTRY.lookup api_name = some spec)
    (pp : List (String × String)) (qp : PyDict)
    (hcov : ∀ p ∈ placeholders spec.path, (pp.lookup p).isSome) :
    (∃ s, formatTemplate spec.path pp = .ok s) ∧
    (∀ extra, buildRequest base api_name (pp ++ extra) qp =
      buildRequest base api_name pp qp) := by
  constructor
  · have hmem := mem_of_lookup_eq_some _ _ _ hlk
    have hph := registry_placeholders _ hmem
    simp only [MESSARI_API_REGISTRY, List.mem_cons, List.not_mem_nil, or_false] at hmem
    rcases hmem with h | h | h | h | h | h
    all_goals obtain ⟨rfl, rfl⟩ := Prod.mk.injEq .. |>.mp h
    · exact ⟨_, rfl⟩
    · exact ⟨_, rfl⟩
    · exact ⟨_, rfl⟩
    · have hsome : (pp.lookup "exchangeIdentifier").isSome := hcov _ (by decide)
      obtain ⟨v, hv⟩ := Option.isSome_iff_exists.mp hsome
      have hfmt : formatTemplate "/metrics/v1/exchanges/{exchangeIdentifier}" pp =
          formatTemplate "/metrics/v1/exchanges/{exchangeIdentifier}"
            [("exchangeIdentifier", v)] := by
        apply fmtAux_agree
        intro q hq
        have hq2 : q ∈ placeholders "/metrics/v1/exchanges/{exchangeIdentifier}" := hq
        rw [show placeholders "/metrics/v1/exchanges/{exchangeIdentifier}" =
          ["exchangeIdentifier"] from rfl] at hq2
        simp at hq2
        subst hq2
        rw [hv]
        rfl
      rw [hfmt]
      exact ⟨_, rfl⟩
    · exact ⟨_, rfl⟩
    · exact ⟨_, rfl⟩
  · intro extra
    have hfmt : formatTemplate spec.path (pp ++ extra) = formatTemplate spec.path pp :=
      fmtAux_agree (pp ++ extra) pp spec.path.data [] false
        (fun p hp => lookup_append_of_isSome pp extra p (hcov p hp))
    simp only [buildRequest, hlk, hfmt]

/-- C10 witness: `exchanges.get` with its placeholder supplied plus a
surplus entry resolves, and the surplus entry changes nothing. -/
theorem c10_surplus_path_params_witness :
    (∃ s, formatTemplate "/metrics/v1/exchanges/{exchangeIdentifier}"
      [("exchangeIdentifier", "binance")] = .ok s) ∧
    buildRequest "b" "exchanges.get"
        ([("exchangeIdentifier", "binance")] ++ [("surplus", "x")]) [] =
      buildRequest "b" "exchanges.get" [("exchangeIdentifier", "binance")] [] := by
  have h := c10_surplus_path_params "b" "exchanges.get"
    { method := "GET"
      path := "/metrics/v1/exchanges/{exchangeIdentifier}"
      path_params := ["exchangeIdentifier"]
      query_params := [] }
    rfl [("exchangeIdentifier", "binance")] [] (by decide)
  exact ⟨h.1, h.2 [("surplus", "x")]⟩
